import Mathlib

/-!
Verification of `nsls2/fitting/base/element.py` (scikit-xray).

Shallow embedding conventions:
* Python floats are modelled as rationals `ℚ`; the code only compares,
  subtracts and takes absolute values of opaque service outputs, so the
  exact-equality and strict-inequality semantics carry over.
* Python strings are Lean `String`s; `str.lower()` / `str.upper()` act
  per character (the quantity keys are ASCII, where CPython and the
  character maps below agree).
* Python `dict` is an insertion-ordered association list; indexing a
  missing key raises `KeyError`, modelled with `Except`.
* The external collaborators `XRAYLIB_MAP` and `OTHER_VAL` live in
  `element_data.py`, which is not part of the analysed source; the
  quantity-category registry is a quantified parameter `XEnv`, and the
  static reference table is modelled from the spec (see `RefTable`).
-/

namespace SkXray

/-- Python `str.lower()`, restricted to the basic latin range that the
quantity keys use: each character is lower-cased independently. -/
def pyLower (s : String) : String :=
  ⟨s.data.map Char.toLower⟩

/-- Python `str.upper()` on the basic latin range. -/
def pyUpper (s : String) : String :=
  ⟨s.data.map Char.toUpper⟩

/-- Python's lexicographic comparison of strings, as comparison of their
code-point sequences: a structurally recursive Boolean decision. -/
def charListLt : List Char → List Char → Bool
  | _, [] => false
  | [], _ :: _ => true
  | c :: cs, d :: ds =>
    if c.toNat < d.toNat then true
    else if d.toNat < c.toNat then false
    else charListLt cs ds

/-- Python's `a <= b` on strings, as derived from the lexicographic `<`
(the order `sorted` sorts by). -/
def pyStrLe (a b : String) : Bool :=
  !(charListLt b.data a.data)

/-- Python `sorted` on a list of strings: a stable sort by the
lexicographic code-point order. -/
def pySorted (l : List String) : List String :=
  List.insertionSort (fun a b => pyStrLe a b = true) l

/-- Python `d[k]` on a dict modelled as an insertion-ordered association
list: the value of the first (unique) binding of `k`, if any. -/
def dictGet {α : Type} (d : List (String × α)) (k : String) : Option α :=
  (d.find? (fun p => p.1 == k)).map Prod.snd

/-- Python `d[k] = v`: overwrite in place if `k` is bound, else append. -/
def dictInsert {α : Type} (d : List (String × α)) (k : String) (v : α) :
    List (String × α) :=
  if d.any (fun p => p.1 == k) then
    d.map (fun p => if p.1 == k then (k, v) else p)
  else d ++ [(k, v)]

/-- A Python exception escaping one of the embedded operations. `keyError`
is a failed dict subscript (the spec's `KeyNotFound` / `UnknownElement`);
`typeError` is a call-arity mismatch. -/
inductive PyErr : Type
  | keyError : PyErr
  | typeError : PyErr
deriving DecidableEq, Repr

/-- A value of `XRAYLIB_MAP`: the per-category computation function. A
category's function either takes `(Z, code)` or `(Z, code, energy)`;
CPython dispatches on the call arity, which the wrapper fixes. -/
inductive XFunc : Type
  | plain (f : Int → Int → ℚ)
  | withEnergy (f : Int → Int → ℚ → ℚ)

/-- The quantity-category registry `XRAYLIB_MAP` of `element_data.py`
(an external collaborator): for each `info_type` string, the key→code
dict and the computation function. Kept abstract: every theorem is
quantified over it. -/
structure XEnv : Type where
  xraylibMap : String → Option (List (String × Int) × XFunc)

/-- State of an `XrayLibWrap` instance (`element.py`, class `XrayLibWrap`):
the fields assigned in `__init__`. `info_type` is a public attribute;
`map`, `func` and `keys` are captured from `XRAYLIB_MAP[info_type]` at
construction time. -/
structure XrayLibWrap : Type where
  element : Int
  info_type : String
  map : List (String × Int)
  func : XFunc
  keys : List String

/-- Method `XrayLibWrap.__init__(element, info_type)`: look up the category in
`XRAYLIB_MAP` (raising if absent) and store the dict, the function, and
`sorted(self._map.keys())`. Python's `sorted` on strings is the stable
sort by lexicographic code-point order. -/
def XrayLibWrap.make (env : XEnv) (element : Int) ( info_type : String) :
    Option XrayLibWrap :=
  (env.xraylibMap info_type).map fun mf =>
    { element := element
      info_type := info_type
      map := mf.1
      func := mf.2
      keys := pySorted (mf.1.map Prod.fst) }

/-- The record `XrayLibWrap.__init__` stores for a registry entry `mf`:
a convenience abbreviation used in theorem statements. -/
def mkWrap (z : Int) (c : String) (mf : List (String × Int) × XFunc) :
    XrayLibWrap :=
  { element := z, info_type := c, map := mf.1, func := mf.2,
    keys := pySorted (mf.1.map Prod.fst) }

/-- Method `XrayLibWrap.__getitem__(key)`: `self._func(self._element,
self._map[key.lower()])`. The subscript is evaluated first (possible
`KeyError`), then the two-argument call (a `TypeError` if the stored
function wants an incident energy). -/
def XrayLibWrap.getitem (w : XrayLibWrap) (key : String) : Except PyErr ℚ :=
  match dictGet w.map (pyLower key) with
  | none => .error .keyError
  | some code =>
    match w.func with
    | .plain f => .ok (f w.element code)
    | .withEnergy _ => .error .typeError

/-- Method `XrayLibWrap.__iter__`: iteration over the sorted key list. -/
def XrayLibWrap.iter (w : XrayLibWrap) : List String :=
  w.keys

/-- Method `XrayLibWrap.__len__`. -/
def XrayLibWrap.len (w : XrayLibWrap) : Nat :=
  w.keys.length

/-- Python `list(self.items())` of `collections.Mapping`: pair each key from
`__iter__` with `self[key]`, left to right, propagating exceptions. -/
def itemsGo (getf : String → Except PyErr ℚ) : List String →
    Except PyErr (List (String × ℚ))
  | [] => .ok []
  | k :: ks =>
    match getf k with
    | .error e => .error e
    | .ok v =>
      match itemsGo getf ks with
      | .error e => .error e
      | .ok rest => .ok ((k, v) :: rest)

/-- The `all` property of `XrayLibWrap`. -/
def XrayLibWrap.all (w : XrayLibWrap) : Except PyErr (List (String × ℚ)) :=
  itemsGo w.getitem w.keys

/-- Reassignment of the public `info_type` attribute after construction
(the attribute is plain data; nothing re-reads it). -/
def XrayLibWrap.setInfoType (w : XrayLibWrap) (t : String) : XrayLibWrap :=
  { w with info_type := t }

/-- State of an `XrayLibWrap_Energy` instance: the base state plus the
mutable `_incident_energy` attribute. -/
structure XrayLibWrapEnergy extends XrayLibWrap : Type where
  incident_energy : ℚ

/-- Method `XrayLibWrap_Energy.__init__`: the base `__init__` plus storing the
incident energy. -/
def XrayLibWrapEnergy.make (env : XEnv) (element : Int) ( info_type : String)
    (incident_energy : ℚ) : Option XrayLibWrapEnergy :=
  (XrayLibWrap.make env element info_type).map fun b =>
    { toXrayLibWrap := b, incident_energy := incident_energy }

/-- Method `XrayLibWrap_Energy.__getitem__(key)`: the three-argument call
`self._func(self._element, self._map[key.lower()], self._incident_energy)`;
again the dict subscript is evaluated before the call. -/
def XrayLibWrapEnergy.getitem (w : XrayLibWrapEnergy) (key : String) :
    Except PyErr ℚ :=
  match dictGet w.map (pyLower key) with
  | none => .error .keyError
  | some code =>
    match w.func with
    | .plain _ => .error .typeError
    | .withEnergy f => .ok (f w.element code w.incident_energy)

/-- Python `list(self.items())` on the energy variant uses the overriding
`__getitem__`. -/
def XrayLibWrapEnergy.all (w : XrayLibWrapEnergy) :
    Except PyErr (List (String × ℚ)) :=
  itemsGo w.getitem w.keys

/-- Setter of the `incident_energy` property: overwrite the attribute. -/
def XrayLibWrapEnergy.setIncidentEnergy (w : XrayLibWrapEnergy) (e : ℚ) :
    XrayLibWrapEnergy :=
  { w with incident_energy := e }

/-- One record of the static reference table: the fields `element.py`
reads from `OTHER_VAL[element]`. -/
structure ElemEntry : Type where
  sym : String
  Z : Int
  mass : ℚ
  rho : ℚ

/-- A Python value used to index `OTHER_VAL`: a string or an int. -/
inductive PyIdent : Type
  | str (s : String)
  | int (z : Int)

/-- Modelled from the spec: the static per-element reference table
`OTHER_VAL` of `element_data.py` (not part of the analysed source).
Per the spec it is keyed by name or number — `lookup(identifier) →
{symbol, atomicNumber, mass, density}` — and "the reference table is
expected to accept case-normalized symbols", so a string identifier
resolves against the case-normalized symbol and an integer identifier
against the atomic number. -/
structure RefTable : Type where
  entries : List ElemEntry

/-- Modelled from the spec: `OTHER_VAL[identifier]`, resolving a
(case-normalized) symbol or an atomic number to its record. -/
def RefTable.lookup (t : RefTable) (i : PyIdent) : Option ElemEntry :=
  match i with
  | .str s => t.entries.find? (fun e => pyLower e.sym == s)
  | .int z => t.entries.find? (fun e => e.Z == z)

/-- State of an `Element` instance: the attributes set by
`Element.__init__`. -/
structure Element : Type where
  name : String
  Z : Int
  mass : ℚ
  density : ℚ
  emission_line : XrayLibWrap
  bind_energy : XrayLibWrap
  jump_factor : XrayLibWrap
  fluor_yield : XrayLibWrap

/-- Identifier normalization in `Element.__init__`: string inputs are
forcibly down-cast to lower case, integers pass through. -/
def normIdent : PyIdent → PyIdent
  | .str s => .str (pyLower s)
  | .int z => .int z

/-- Method `Element.__init__(element)`: lower-case a string identifier, index
`OTHER_VAL`, store the static fields, and construct the four category
wraps for this atomic number. -/
def Element.make (env : XEnv) (t : RefTable) ( ident : PyIdent) :
    Option Element :=
  match t.lookup (normIdent ident) with
  | none => none
  | some d =>
    match XrayLibWrap.make env d.Z "lines" with
    | none => none
    | some el =>
      match XrayLibWrap.make env d.Z "binding_e" with
      | none => none
      | some be =>
        match XrayLibWrap.make env d.Z "jump" with
        | none => none
        | some jf =>
          match XrayLibWrap.make env d.Z "yield" with
          | none => none
          | some fy =>
            some { name := d.sym
                   Z := d.Z
                   mass := d.mass
                   density := d.rho
                   emission_line := el
                   bind_energy := be
                   jump_factor := jf
                   fluor_yield := fy }

/-- Method `Element.__eq__`: atomic numbers match. -/
def Element.beq (a b : Element) : Bool :=
  a.Z == b.Z

/-- Method `Element.__lt__`: atomic numbers compare. -/
def Element.blt (a b : Element) : Bool :=
  decide (a.Z < b.Z)

/-- Method `__le__` as `functools.total_ordering` derives it from `__lt__` and
`__eq__`: `a < b or a == b`. -/
def Element.ble (a b : Element) : Bool :=
  a.blt b || a.beq b

/-- Property `Element.cs`: the returned closure builds a fresh
`XrayLibWrap_Energy(self._z, 'cs', incident_energy)` on every call. -/
def Element.cs (env : XEnv) (el : Element) (incident_energy : ℚ) :
    Option XrayLibWrapEnergy :=
  XrayLibWrapEnergy.make env el.Z "cs" incident_energy

/-- Expression `self.cs(incident_energy)[k]` as one step: construct the cross-section
wrap (its `__init__` raises `KeyError` if the category is missing from
the registry) and subscript it. -/
def Element.csValue (env : XEnv) (el : Element) (incident_energy : ℚ)
    (k : String) : Except PyErr ℚ :=
  match el.cs env incident_energy with
  | none => .error .keyError
  | some cw => cw.getitem k

/-- The loop body of `Element.line_near`: iterate the emission-line items
`(k, v)` in key order, skip `k` when the cross section at the incident
energy is exactly zero, and bind `out_dict[k] = v` when
`abs(v - energy) < delta_e`. -/
def lineNearGo (env : XEnv) (el : Element) (energy delta_e incident_energy : ℚ) :
    List String → List (String × ℚ) → Except PyErr (List (String × ℚ))
  | [], acc => .ok acc
  | k :: ks, acc =>
    match el.emission_line.getitem k with
    | .error e => .error e
    | .ok v =>
      match el.csValue env incident_energy k with
      | .error e => .error e
      | .ok c =>
        if c = 0 then
          lineNearGo env el energy delta_e incident_energy ks acc
        else if |v - energy| < delta_e then
          lineNearGo env el energy delta_e incident_energy ks (dictInsert acc k v)
        else
          lineNearGo env el energy delta_e incident_energy ks acc

/-- Method `Element.line_near(energy, delta_e, incident_energy)`. -/
def Element.line_near (env : XEnv) (el : Element)
    (energy delta_e incident_energy : ℚ) : Except PyErr (List (String × ℚ)) :=
  lineNearGo env el energy delta_e incident_energy el.emission_line.iter []

/-- The per-key outcome of one `line_near` loop iteration, for stating
what the loop accumulates. -/
def lineNearPick (env : XEnv) (el : Element) (energy delta_e incident_energy : ℚ)
    (k : String) : Option (String × ℚ) :=
  match el.emission_line.getitem k, el.csValue env incident_energy k with
  | .ok v, .ok c =>
    if c = 0 then none
    else if |v - energy| < delta_e then some (k, v)
    else none
  | _, _ => none

/-- A heap of `XrayLibWrap_Energy` instances, for stating that the
`incident_energy` setter writes only through `self`: instance identities
are indexed by `Nat`. -/
def EnergyStore : Type :=
  Nat → Option XrayLibWrapEnergy

/-- Assigning `incident_energy` on the instance with identity `i`. -/
def EnergyStore.setIncident (st : EnergyStore) (i : Nat) (e : ℚ) : EnergyStore :=
  fun j => if j = i then (st j).map (fun s => s.setIncidentEnergy e) else st j

/-- Subscripting the instance with identity `i`. -/
def EnergyStore.getitem (st : EnergyStore) (i : Nat) (key : String) :
    Except PyErr ℚ :=
  match st i with
  | none => .error .keyError
  | some s => s.getitem key

/-- Concrete registry fixture: the emission-line key→code dict. -/
def linesMapW : List (String × Int) :=
  [("ka1", 0), ("kb1", 1)]

/-- Concrete fixture: emission-line energy computation. -/
def linesFuncW : XFunc :=
  .plain (fun _ c => if c = 0 then 8 else 9)

/-- Concrete fixture: cross-section computation, zero for code `1`. -/
def csFuncW : XFunc :=
  .withEnergy (fun _ c e => if c = 0 then e else 0)

/-- Concrete registry fixture with all five categories. -/
def envW : XEnv :=
  { xraylibMap := fun t =>
      if t = "lines" then some (linesMapW, linesFuncW)
      else if t = "binding_e" then some ([("k", 0)], .plain (fun _ _ => 5))
      else if t = "jump" then some ([("k", 0)], .plain (fun _ _ => 2))
      else if t = "yield" then some ([("k", 0)], .plain (fun _ _ => 3))
      else if t = "cs" then some (linesMapW, csFuncW)
      else none }

/-- Concrete emission-line wrap fixture for atomic number 30. -/
def linesWrapW : XrayLibWrap :=
  { element := 30, info_type := "lines", map := linesMapW, func := linesFuncW,
    keys := ["ka1", "kb1"] }

/-- Concrete shell-keyed wrap fixture. -/
def shellWrapW : XrayLibWrap :=
  { element := 30, info_type := "binding_e", map := [("k", 0)],
    func := .plain (fun _ _ => 5), keys := ["k"] }

/-- Concrete cross-section wrap fixture at incident energy 10. -/
def csWrapW : XrayLibWrapEnergy :=
  { element := 30, info_type := "cs", map := linesMapW, func := csFuncW,
    keys := ["ka1", "kb1"], incident_energy := 10 }

/-- Concrete cross-section wrap fixture at incident energy 20. -/
def csWrapW2 : XrayLibWrapEnergy :=
  { element := 30, info_type := "cs", map := linesMapW, func := csFuncW,
    keys := ["ka1", "kb1"], incident_energy := 20 }

/-- Concrete element fixture. -/
def elW : Element :=
  { name := "Zn", Z := 30, mass := 65, density := 7,
    emission_line := linesWrapW, bind_energy := shellWrapW,
    jump_factor := shellWrapW, fluor_yield := shellWrapW }

/-- Concrete reference-table fixture. -/
def tblW : RefTable :=
  { entries := [{ sym := "Zn", Z := 30, mass := 65, rho := 7 },
                { sym := "Fe", Z := 26, mass := 56, rho := 8 }] }

/-- Concrete two-instance heap fixture. -/
def stW : EnergyStore :=
  fun n => if n = 0 then some csWrapW else if n = 1 then some csWrapW2 else none

theorem char_lt_iff_toNat (c d : Char) : c < d ↔ c.toNat < d.toNat :=
  Iff.rfl

theorem char_eq_of_toNat_eq (c d : Char) (h : c.toNat = d.toNat) : c = d :=
  Char.eq_of_val_eq (UInt32.eq_of_toBitVec_eq (BitVec.eq_of_toNat_eq h))

theorem charListLt_iff_lex :
    ∀ x y : List Char, charListLt x y = true ↔ List.Lex (· < ·) x y := by
  intro x
  induction x with
  | nil =>
    intro y
    cases y with
    | nil =>
      simp only [charListLt]
      constructor
      · intro h
        cases h
      · intro h
        exact absurd h (List.Lex.not_nil_right _ _)
    | cons d ds =>
      simp only [charListLt]
      exact ⟨fun _ => List.Lex.nil, fun _ => trivial⟩
  | cons c cs ih =>
    intro y
    cases y with
    | nil =>
      simp only [charListLt]
      constructor
      · intro h
        cases h
      · intro h
        exact absurd h (List.Lex.not_nil_right _ _)
    | cons d ds =>
      simp only [charListLt]
      by_cases h1 : c.toNat < d.toNat
      · simp only [if_pos h1]
        exact ⟨fun _ => List.Lex.rel ((char_lt_iff_toNat c d).mpr h1),
          fun _ => trivial⟩
      · simp only [if_neg h1]
        by_cases h2 : d.toNat < c.toNat
        · simp only [if_pos h2]
          constructor
          · intro h
            cases h
          · intro h
            cases h with
            | cons h3 => omega
            | rel h3 =>
              rw [char_lt_iff_toNat] at h3
              omega
        · simp only [if_neg h2]
          have hcd : c = d := char_eq_of_toNat_eq c d (by omega)
          subst hcd
          rw [ih ds]
          constructor
          · intro h
            exact List.Lex.cons h
          · intro h
            cases h with
            | cons h3 => exact h3
            | rel h3 =>
              rw [char_lt_iff_toNat] at h3
              omega

theorem pyStrLe_iff (a b : String) : pyStrLe a b = true ↔ a ≤ b := by
  have h1 : pyStrLe a b = true ↔ ¬ charListLt b.data a.data = true := by
    unfold pyStrLe
    cases charListLt b.data a.data <;> simp
  have h2 : List.Lex (· < ·) b.data a.data ↔ b < a := by
    rw [String.lt_iff_toList_lt]
    exact Iff.rfl
  rw [h1, charListLt_iff_lex, h2, not_lt]


theorem lineNearPick_eq (env : XEnv) (el : Element) (energy delta_e inc : ℚ)
    (k : String) (v c : ℚ)
    (hv : el.emission_line.getitem k = .ok v)
    (hc : el.csValue env inc k = .ok c) :
    lineNearPick env el energy delta_e inc k =
      if c = 0 then none
      else if |v - energy| < delta_e then some (k, v) else none := by
  unfold lineNearPick
  rw [hv, hc]

theorem XrayLibWrap.make_eq (env : XEnv) (z : Int) (c : String)
    (mf : List (String × Int) × XFunc) (h : env.xraylibMap c = some mf) :
    XrayLibWrap.make env z c = some (mkWrap z c mf) := by
  rw [XrayLibWrap.make, h]
  rfl

theorem Element.make_Z (env : XEnv) (t : RefTable) (i : PyIdent) (d : ElemEntry)
    (ml mb mj my : List (String × Int) × XFunc)
    (hd : t.lookup (normIdent i) = some d)
    (hml : env.xraylibMap "lines" = some ml)
    (hmb : env.xraylibMap "binding_e" = some mb)
    (hmj : env.xraylibMap "jump" = some mj)
    (hmy : env.xraylibMap "yield" = some my) :
    ∃ el, Element.make env t i = some el ∧ el.Z = d.Z := by
  refine ⟨{ name := d.sym, Z := d.Z, mass := d.mass, density := d.rho,
            emission_line := mkWrap d.Z "lines" ml,
            bind_energy := mkWrap d.Z "binding_e" mb,
            jump_factor := mkWrap d.Z "jump" mj,
            fluor_yield := mkWrap d.Z "yield" my }, ?_, rfl⟩
  unfold Element.make
  simp only [hd, XrayLibWrap.make_eq env d.Z "lines" ml hml,
      XrayLibWrap.make_eq env d.Z "binding_e" mb hmb,
      XrayLibWrap.make_eq env d.Z "jump" mj hmj,
      XrayLibWrap.make_eq env d.Z "yield" my hmy]

end SkXray

namespace SkXray

theorem char_toLower_toUpper (c : Char) : c.toUpper.toLower = c.toLower := by
  unfold Char.toUpper Char.toLower
  by_cases h : c.toNat ≥ 97 ∧ c.toNat ≤ 122
  · rw [if_pos h]
    have hv : (c.toNat - 32).isValidChar := by
      left
      omega
    have ht : (Char.ofNat (c.toNat - 32)).toNat = c.toNat - 32 := by
      rw [Char.ofNat, dif_pos hv]
      rfl
    rw [if_pos (by omega : (Char.ofNat (c.toNat - 32)).toNat ≥ 65 ∧
          (Char.ofNat (c.toNat - 32)).toNat ≤ 90)]
    rw [if_neg (by omega : ¬ (c.toNat ≥ 65 ∧ c.toNat ≤ 90))]
    rw [ht]
    have : c.toNat - 32 + 32 = c.toNat := by omega
    rw [this, Char.ofNat_toNat]
  · rw [if_neg h]

theorem pyLower_pyUpper (s : String) : pyLower (pyUpper s) = pyLower s := by
  unfold pyLower pyUpper
  simp [List.map_map, Function.comp_def, char_toLower_toUpper]

theorem dictGet_eq_none {α : Type} (d : List (String × α)) (k : String)
    (h : k ∉ d.map Prod.fst) : dictGet d k = none := by
  unfold dictGet
  rw [List.find?_eq_none.mpr]
  · rfl
  · intro p hp hpk
    exact h (List.mem_map.mpr ⟨p, hp, by simpa using hpk⟩)

theorem dictInsert_fresh {α : Type} (d : List (String × α)) (k : String) (v : α)
    (h : ∀ p ∈ d, p.1 ≠ k) : dictInsert d k v = d ++ [(k, v)] := by
  unfold dictInsert
  rw [if_neg]
  simp only [List.any_eq_true, not_exists, not_and]
  intro p hp
  simpa using h p hp

theorem itemsGo_eq (g : String → Except PyErr ℚ) :
    ∀ (ks : List String) (l : List (String × ℚ)), itemsGo g ks = .ok l →
      l.map Prod.fst = ks ∧ ∀ p ∈ l, g p.1 = .ok p.2 := by
  intro ks
  induction ks with
  | nil =>
    intro l h
    simp only [itemsGo] at h
    cases h
    simp
  | cons k ks ih =>
    intro l h
    simp only [itemsGo] at h
    cases hk : g k with
    | error e => rw [hk] at h; cases h
    | ok v =>
      rw [hk] at h
      cases hrest : itemsGo g ks with
      | error e => rw [hrest] at h; cases h
      | ok rest =>
        rw [hrest] at h
        cases h
        obtain ⟨hmap, hval⟩ := ih rest hrest
        refine ⟨by simpa using hmap, ?_⟩
        intro p hp
        rcases List.mem_cons.mp hp with hp | hp
        · subst hp; exact hk
        · exact hval p hp

theorem lineNearPick_key (env : XEnv) (el : Element)
    (energy delta_e incident_energy : ℚ) (a : String) (p : String × ℚ)
    (h : lineNearPick env el energy delta_e incident_energy a = some p) :
    p.1 = a := by
  unfold lineNearPick at h
  split at h
  · split at h
    · cases h
    · split at h
      · cases h
        rfl
      · cases h
  · cases h

theorem filterMap_fst_sublist {β : Type} (f : String → Option (String × β))
    (hf : ∀ a p, f a = some p → p.1 = a) :
    ∀ l : List String, ((l.filterMap f).map Prod.fst).Sublist l := by
  intro l
  induction l with
  | nil => simp
  | cons a l ih =>
    cases hfa : f a with
    | none =>
      rw [List.filterMap_cons, hfa]
      exact ih.cons a
    | some p =>
      rw [List.filterMap_cons, hfa]
      rw [List.map_cons, hf a p hfa]
      exact ih.cons₂ a

theorem lineNearGo_eq (env : XEnv) (el : Element) (energy delta_e inc : ℚ) :
    ∀ (ks : List String) (acc out : List (String × ℚ)),
      ks.Nodup → (∀ p ∈ acc, p.1 ∉ ks) →
      lineNearGo env el energy delta_e inc ks acc = .ok out →
      out = acc ++ ks.filterMap (lineNearPick env el energy delta_e inc) := by
  intro ks
  induction ks with
  | nil =>
    intro acc out _ _ h
    simp only [lineNearGo] at h
    cases h
    simp
  | cons k ks ih =>
    intro acc out hnd hfr h
    simp only [lineNearGo] at h
    split at h
    · cases h
    · rename_i v hv
      split at h
      · cases h
      · rename_i c hc
        split at h
        · rename_i h0
          have hfr' : ∀ p ∈ acc, p.1 ∉ ks := fun p hp hm =>
            hfr p hp (List.mem_cons_of_mem _ hm)
          rw [ih acc out (List.Nodup.of_cons hnd) hfr' h]
          rw [List.filterMap_cons]
          rw [show lineNearPick env el energy delta_e inc k = none by
            simp [lineNearPick, hv, hc, h0]]
        · rename_i h0
          split at h
          · rename_i hin
            have hfresh : ∀ p ∈ acc, p.1 ≠ k := fun p hp he =>
              hfr p hp (he ▸ List.mem_cons_self k ks)
            rw [dictInsert_fresh acc k v hfresh] at h
            have hfr' : ∀ p ∈ acc ++ [(k, v)], p.1 ∉ ks := by
              intro p hp
              rcases List.mem_append.mp hp with h1 | h2
              · exact fun hm => hfr p h1 (List.mem_cons_of_mem _ hm)
              · have : p = (k, v) := by simpa using h2
                subst this
                exact (List.nodup_cons.mp hnd).1
            rw [ih (acc ++ [(k, v)]) out (List.Nodup.of_cons hnd) hfr' h]
            rw [List.filterMap_cons]
            rw [show lineNearPick env el energy delta_e inc k = some (k, v) by
              simp [lineNearPick, hv, hc, h0, hin]]
            simp
          · rename_i hin
            have hfr' : ∀ p ∈ acc, p.1 ∉ ks := fun p hp hm =>
              hfr p hp (List.mem_cons_of_mem _ hm)
            rw [ih acc out (List.Nodup.of_cons hnd) hfr' h]
            rw [List.filterMap_cons]
            rw [show lineNearPick env el energy delta_e inc k = none by
              simp [lineNearPick, hv, hc, h0, hin]]

/-- C1: for every key of the emission-line lookup, `line_near(energy,
delta_e, incident_energy)` contains that key mapped to its emission-line
energy if and only if the cross section computed for that key at the
incident energy is not exactly zero and `|lineEnergy - energy| < delta_e`
holds strictly; a zero cross section excludes the line even at an exact
energy match, and the boundary `|lineEnergy - energy| = delta_e` is
excluded. -/
theorem C1_line_near_membership (env : XEnv) (el : Element)
    (energy delta_e inc : ℚ) (out : List (String × ℚ)) (k : String) (v c : ℚ)
    (hnd : el.emission_line.keys.Nodup)
    (hout : el.line_near env energy delta_e inc = .ok out)
    (hk : k ∈ el.emission_line.keys)
    (hv : el.emission_line.getitem k = .ok v)
    (hc : el.csValue env inc k = .ok c) :
    (k, v) ∈ out ↔ (c ≠ 0 ∧ |v - energy| < delta_e) := by
  have hout2 : lineNearGo env el energy delta_e inc el.emission_line.keys [] =
      .ok out := hout
  have heq := lineNearGo_eq env el energy delta_e inc el.emission_line.keys []
    out hnd (by simp) hout2
  rw [heq, List.nil_append]
  constructor
  · intro hm
    obtain ⟨a, _, hpa⟩ := List.mem_filterMap.mp hm
    obtain rfl : k = a := lineNearPick_key env el energy delta_e inc a (k, v) hpa
    rw [lineNearPick_eq env el energy delta_e inc k v c hv hc] at hpa
    split at hpa
    · cases hpa
    · rename_i h0
      split at hpa
      · rename_i hin
        exact ⟨h0, hin⟩
      · cases hpa
  · rintro ⟨h0, hin⟩
    refine List.mem_filterMap.mpr ⟨k, hk, ?_⟩
    rw [lineNearPick_eq env el energy delta_e inc k v c hv hc, if_neg h0,
        if_pos hin]

/-- C2: for an identifier present in the reference table, construction from
the symbol in any letter case or from the atomic number succeeds, the
resulting `Z` is the same either way, and string inputs are lower-cased
before the table lookup (equal lower-casings give identical results). -/
theorem C2_constructor_identifiers (env : XEnv) (t : RefTable) (s : String)
    (d : ElemEntry)
    (hs : t.lookup (.str (pyLower s)) = some d)
    (ml mb mj my : List (String × Int) × XFunc)
    (hml : env.xraylibMap "lines" = some ml)
    (hmb : env.xraylibMap "binding_e" = some mb)
    (hmj : env.xraylibMap "jump" = some mj)
    (hmy : env.xraylibMap "yield" = some my) :
    (∃ el, Element.make env t (.str s) = some el ∧ el.Z = d.Z) ∧
    (∃ el, Element.make env t (.int d.Z) = some el ∧ el.Z = d.Z) ∧
    (∀ s2, pyLower s2 = pyLower s →
        Element.make env t (.str s2) = Element.make env t (.str s)) := by
  refine ⟨?_, ?_, ?_⟩
  · exact Element.make_Z env t (.str s) d ml mb mj my hs hml hmb hmj hmy
  · have hdm : d ∈ t.entries := List.mem_of_find?_eq_some hs
    have hex : (t.entries.find? (fun e => e.Z == d.Z)).isSome :=
      List.find?_isSome.mpr ⟨d, hdm, by simp⟩
    obtain ⟨d2, hd2⟩ := Option.isSome_iff_exists.mp hex
    have hz2 : d2.Z = d.Z := by simpa using List.find?_some hd2
    obtain ⟨el, hel, helZ⟩ :=
      Element.make_Z env t (.int d.Z) d2 ml mb mj my hd2 hml hmb hmj hmy
    exact ⟨el, hel, by rw [helZ, hz2]⟩
  · intro s2 h2
    unfold Element.make
    rw [show normIdent (.str s2) = normIdent (.str s) by
      show PyIdent.str (pyLower s2) = PyIdent.str (pyLower s)
      rw [h2]]

/-- C3: element equality holds iff atomic numbers are equal, strict
comparison iff atomic numbers compare, the derived order agrees with
`Z ≤ Z` (so sorting by it sorts by increasing atomic number), the strict
comparison is transitive and the order total, and none of the comparisons
depend on the element name. -/
theorem C3_total_order :
    (∀ a b : Element, a.beq b = true ↔ a.Z = b.Z) ∧
    (∀ a b : Element, a.blt b = true ↔ a.Z < b.Z) ∧
    (∀ a b : Element, a.ble b = true ↔ a.Z ≤ b.Z) ∧
    (∀ a b c : Element, a.blt b = true → b.blt c = true → a.blt c = true) ∧
    (∀ a b : Element, a.ble b = true ∨ b.ble a = true) ∧
    (∀ (a b : Element) (n1 n2 : String),
        ({ a with name := n1 } : Element).beq { b with name := n2 } = a.beq b ∧
        ({ a with name := n1 } : Element).blt { b with name := n2 } = a.blt b) := by
  have hb : ∀ a b : Element, a.beq b = true ↔ a.Z = b.Z := by
    intro a b
    simp [Element.beq]
  have hl : ∀ a b : Element, a.blt b = true ↔ a.Z < b.Z := by
    intro a b
    simp [Element.blt]
  have hle : ∀ a b : Element, a.ble b = true ↔ a.Z ≤ b.Z := by
    intro a b
    rw [Element.ble, Bool.or_eq_true, hb, hl]
    omega
  refine ⟨hb, hl, hle, ?_, ?_, ?_⟩
  · intro a b c h1 h2
    rw [hl] at h1 h2 ⊢
    omega
  · intro a b
    rw [hle, hle]
    omega
  · intro a b n1 n2
    exact ⟨rfl, rfl⟩

/-- C4: quantity lookup is case-insensitive: `get` on a key and on its
upper-cased form return identical results, for both the plain and the
energy-dependent lookup, because the key is lower-cased before resolving
it through the category key→code table. -/
theorem C4_case_insensitive (w : XrayLibWrap) (we : XrayLibWrapEnergy)
    (key : String) :
    w.getitem (pyUpper key) = w.getitem key ∧
    we.getitem (pyUpper key) = we.getitem key := by
  unfold XrayLibWrap.getitem XrayLibWrapEnergy.getitem
  rw [pyLower_pyUpper]
  exact ⟨rfl, rfl⟩

/-- C5: `get` on a key absent (after lower-casing) from the category's
key set fails with the key-lookup error, for both lookup variants; it
never produces a value. -/
theorem C5_unknown_key (w : XrayLibWrap) (we : XrayLibWrapEnergy) (key : String)
    (h1 : pyLower key ∉ w.map.map Prod.fst)
    (h2 : pyLower key ∉ we.map.map Prod.fst) :
    w.getitem key = .error .keyError ∧ we.getitem key = .error .keyError := by
  unfold XrayLibWrap.getitem XrayLibWrapEnergy.getitem
  rw [dictGet_eq_none _ _ h1, dictGet_eq_none _ _ h2]
  exact ⟨rfl, rfl⟩

/-- C6: the key sequence of a quantity lookup is lexicographically sorted
and duplicate-free (given that the category dict has no duplicate keys),
and it is determined solely by the category: lookups of the same category
built for different atomic numbers have identical key sequences. -/
theorem C6_keys_canonical (env : XEnv) (z : Int) (c : String) (w : XrayLibWrap)
    (hw : XrayLibWrap.make env z c = some w)
    (hnd : (w.map.map Prod.fst).Nodup) :
    w.keys.Sorted (· ≤ ·) ∧ w.keys.Nodup ∧
    (∀ (z2 : Int) (w2 : XrayLibWrap),
        XrayLibWrap.make env z2 c = some w2 → w2.keys = w.keys) := by
  rw [XrayLibWrap.make] at hw
  obtain ⟨mf, hmf, hfw⟩ := Option.map_eq_some'.mp hw
  subst hfw
  haveI hTot : IsTotal String (fun a b => pyStrLe a b = true) :=
    ⟨fun a b => by rw [pyStrLe_iff, pyStrLe_iff]; exact le_total a b⟩
  haveI hTr : IsTrans String (fun a b => pyStrLe a b = true) :=
    ⟨fun a b c h1 h2 => by
      rw [pyStrLe_iff] at h1 h2 ⊢
      exact le_trans h1 h2⟩
  refine ⟨?_, ?_, ?_⟩
  · exact (List.sorted_insertionSort (fun a b => pyStrLe a b = true)
      (mf.1.map Prod.fst)).imp (fun h => (pyStrLe_iff _ _).mp h)
  · exact (List.perm_insertionSort (fun a b => pyStrLe a b = true) _).nodup_iff.mpr hnd
  · intro z2 w2 hw2
    rw [XrayLibWrap.make] at hw2
    obtain ⟨mf2, hmf2, hfw2⟩ := Option.map_eq_some'.mp hw2
    rw [hmf] at hmf2
    cases hmf2
    rw [← hfw2]

/-- C7: the `all` listing of a quantity lookup returns exactly `len` pairs,
whose keys are, in order, exactly the `keys` sequence, and whose values
each equal a direct `get` of the same key on the same instance, for both
lookup variants. -/
theorem C7_all_items (w : XrayLibWrap) (we : XrayLibWrapEnergy)
    (l m : List (String × ℚ))
    (h1 : w.all = .ok l) (h2 : we.all = .ok m) :
    (l.length = w.len ∧ l.map Prod.fst = w.keys ∧
      ∀ p ∈ l, w.getitem p.1 = .ok p.2) ∧
    (m.length = we.len ∧ m.map Prod.fst = we.keys ∧
      ∀ p ∈ m, we.getitem p.1 = .ok p.2) := by
  obtain ⟨ha, hav⟩ := itemsGo_eq _ _ _ h1
  obtain ⟨hc, hcv⟩ := itemsGo_eq _ _ _ h2
  refine ⟨⟨?_, ha, hav⟩, ?_, hc, hcv⟩
  · rw [XrayLibWrap.len, ← ha, List.length_map]
  · rw [XrayLibWrap.len, ← hc, List.length_map]

/-- C8: setting the incident energy to `e1` and then `e2` on one instance
makes subsequent `get` behave exactly as if only `e2` had been set, and
setting the incident energy on one instance never changes what `get`
returns on a different instance. -/
theorem C8_incident_energy (st : EnergyStore) (i j : Nat) (e1 e2 e : ℚ)
    (key : String) (hij : i ≠ j) :
    ((st.setIncident i e1).setIncident i e2).getitem i key =
      (st.setIncident i e2).getitem i key ∧
    (st.setIncident i e).getitem j key = st.getitem j key := by
  constructor
  · unfold EnergyStore.getitem EnergyStore.setIncident
    simp only [if_pos]
    cases st i with
    | none => rfl
    | some w => rfl
  · unfold EnergyStore.getitem EnergyStore.setIncident
    rw [if_neg (Ne.symm hij)]

/-- C10: reassigning the public `info_type` attribute after construction
leaves `get`, iteration, length and the `all` listing unchanged: the
key→code map, the computation function and the sorted key list were
captured at construction time and are never re-read from `info_type`. -/
theorem C10_info_type_inert (w : XrayLibWrap) (t key : String) :
    (w.setInfoType t).getitem key = w.getitem key ∧
    (w.setInfoType t).iter = w.iter ∧
    (w.setInfoType t).len = w.len ∧
    (w.setInfoType t).all = w.all :=
  ⟨rfl, rfl, rfl, rfl⟩

/-- C9: the mapping returned by `line_near` has unique keys and its
insertion order is the order of the emission-line key sequence: its key
list is a duplicate-free sublist of the emission-line `keys`. -/
theorem C9_line_near_order (env : XEnv) (el : Element)
    (energy delta_e inc : ℚ) (out : List (String × ℚ))
    (hnd : el.emission_line.keys.Nodup)
    (hout : el.line_near env energy delta_e inc = .ok out) :
    (out.map Prod.fst).Sublist el.emission_line.keys ∧
    (out.map Prod.fst).Nodup := by
  have hout2 : lineNearGo env el energy delta_e inc el.emission_line.keys [] =
      .ok out := hout
  have heq := lineNearGo_eq env el energy delta_e inc el.emission_line.keys []
    out hnd (by simp) hout2
  rw [heq, List.nil_append]
  have hsub := filterMap_fst_sublist (lineNearPick env el energy delta_e inc)
    (fun a p hp => lineNearPick_key env el energy delta_e inc a p hp)
    el.emission_line.keys
  exact ⟨hsub, List.Nodup.sublist hsub hnd⟩

/-- Witness for C1 at a concrete registry, element and search window. -/
theorem C1_line_near_membership_witness :
    (("ka1", (8 : ℚ)) ∈ ([("ka1", (8 : ℚ))] : List (String × ℚ))) ↔
      ((10 : ℚ) ≠ 0 ∧ |(8 : ℚ) - 8| < 1) :=
  C1_line_near_membership envW elW 8 1 10 [("ka1", 8)] "ka1" 8 10
    (by decide)
    (by simp [Element.line_near, XrayLibWrap.iter, lineNearGo, XrayLibWrap.getitem,
      Element.csValue, Element.cs, XrayLibWrapEnergy.make, XrayLibWrap.make,
      XrayLibWrapEnergy.getitem, dictGet, dictInsert, envW, elW, linesWrapW,
      linesMapW, linesFuncW, csFuncW,
      show pyLower "ka1" = "ka1" from by decide,
      show pyLower "kb1" = "kb1" from by decide])
    (by decide) rfl rfl

/-- Witness for C2: same element resolved through two spellings. -/
theorem C2_constructor_identifiers_witness :
    Element.make envW tblW (.str "zn") = Element.make envW tblW (.str "ZN") :=
  (C2_constructor_identifiers envW tblW "ZN"
      { sym := "Zn", Z := 30, mass := 65, rho := 7 } rfl
      (linesMapW, linesFuncW) ([("k", 0)], .plain (fun _ _ => 5))
      ([("k", 0)], .plain (fun _ _ => 2)) ([("k", 0)], .plain (fun _ _ => 3))
      rfl rfl rfl rfl).2.2 "zn" (by decide)

/-- Witness for C5 at a key no category contains. -/
theorem C5_unknown_key_witness :
    linesWrapW.getitem "zz" = .error .keyError ∧
    csWrapW.getitem "zz" = .error .keyError :=
  C5_unknown_key linesWrapW csWrapW "zz" (by decide) (by decide)

/-- Witness for C6 on the concrete emission-line category. -/
theorem C6_keys_canonical_witness :
    (mkWrap 30 "lines" (linesMapW, linesFuncW)).keys.Sorted (· ≤ ·) ∧
    (mkWrap 30 "lines" (linesMapW, linesFuncW)).keys.Nodup :=
  ⟨(C6_keys_canonical envW 30 "lines" (mkWrap 30 "lines" (linesMapW, linesFuncW))
      rfl (by decide)).1,
   (C6_keys_canonical envW 30 "lines" (mkWrap 30 "lines" (linesMapW, linesFuncW))
      rfl (by decide)).2.1⟩

/-- Witness for C7 on concrete plain and energy-dependent lookups. -/
theorem C7_all_items_witness :
    ([(("ka1" : String), (8 : ℚ)), ("kb1", 9)].length = linesWrapW.len ∧
      [(("ka1" : String), (8 : ℚ)), ("kb1", 9)].map Prod.fst = linesWrapW.keys) ∧
    ([(("ka1" : String), (10 : ℚ)), ("kb1", 0)].length = csWrapW.len ∧
      [(("ka1" : String), (10 : ℚ)), ("kb1", 0)].map Prod.fst = csWrapW.keys) :=
  ⟨⟨(C7_all_items linesWrapW csWrapW [("ka1", 8), ("kb1", 9)]
        [("ka1", 10), ("kb1", 0)] rfl rfl).1.1,
    (C7_all_items linesWrapW csWrapW [("ka1", 8), ("kb1", 9)]
        [("ka1", 10), ("kb1", 0)] rfl rfl).1.2.1⟩,
   ⟨(C7_all_items linesWrapW csWrapW [("ka1", 8), ("kb1", 9)]
        [("ka1", 10), ("kb1", 0)] rfl rfl).2.1,
    (C7_all_items linesWrapW csWrapW [("ka1", 8), ("kb1", 9)]
        [("ka1", 10), ("kb1", 0)] rfl rfl).2.2.1⟩⟩

/-- Witness for C8 on a two-instance heap. -/
theorem C8_incident_energy_witness :
    ((stW.setIncident 0 5).setIncident 0 7).getitem 0 "ka1" =
      (stW.setIncident 0 7).getitem 0 "ka1" ∧
    (stW.setIncident 0 9).getitem 1 "ka1" = stW.getitem 1 "ka1" :=
  C8_incident_energy stW 0 1 5 7 9 "ka1" (by decide)

/-- Witness for C9 on the concrete search of C1. -/
theorem C9_line_near_order_witness :
    (([(("ka1" : String), (8 : ℚ))].map Prod.fst).Sublist
        elW.emission_line.keys) ∧
    ([(("ka1" : String), (8 : ℚ))].map Prod.fst).Nodup :=
  C9_line_near_order envW elW 8 1 10 [("ka1", 8)]
    (by decide)
    (by simp [Element.line_near, XrayLibWrap.iter, lineNearGo, XrayLibWrap.getitem,
      Element.csValue, Element.cs, XrayLibWrapEnergy.make, XrayLibWrap.make,
      XrayLibWrapEnergy.getitem, dictGet, dictInsert, envW, elW, linesWrapW,
      linesMapW, linesFuncW, csFuncW,
      show pyLower "ka1" = "ka1" from by decide,
      show pyLower "kb1" = "kb1" from by decide])

end SkXray
